import Mathlib

/-!
Shallow embedding of `render_single_position_histogram_adaptive_COLORLOCKED_v2.py`
(the locked single-position HA histogram renderer), together with theorems
checking the specification's claims about it.

Python strings are modelled as Lean `String`; spreadsheet cells that may be
missing (NA / NaN / None) are modelled as `Option`; real-valued data is
modelled over `ℚ` (the source's float arithmetic is exact on the operations
the claims are about); fallible code paths return `Except String`.
-/

namespace Hist

/-! ### Locked constants (source lines 50-74) -/

def CLUSTERS : List (String × Int × Int) :=
  [("HK68",1968,1972),("EN72",1972,1975),("VI75",1975,1977),
   ("TX77",1977,1979),("BK79",1979,1987),("SI87",1987,1989),
   ("BE89",1989,1992),("BE92",1992,1995),("WU95",1995,1997),
   ("SY97",1997,2002),("FU02",2002,2004),("CA04",2004,2005),
   ("WI05",2005,2009),("PE09",2009,2012),("TX12",2012,2014),
   ("HK14",2014,2015)]

def CLUSTER_NAMES : List String := CLUSTERS.map (·.1)

def YEAR_MIN : Int := 1965

def YEAR_MAX : Int := 2020

def numYears : Nat := 56

def HIST_H_IN : ℚ := 2

def CLUSTER_H_IN : ℚ := 30/100

def YEAR_H_IN : ℚ := 25/100

def GAP_IN : ℚ := 10/100

def TOP_PAD_IN : ℚ := 20/100

def BOTTOM_PAD_IN : ℚ := 2/100

/-- Source line 73: `NEUT_ROW_H_IN = 0.85/4.0`. -/
def NEUT_ROW_H_IN : ℚ := (85/100) / 4

/-- Source line 74: `NO_MABS_H_IN = NEUT_ROW_H_IN`. -/
def NO_MABS_H_IN : ℚ := NEUT_ROW_H_IN

/-! ### Python string primitives used by the source -/

/-- Python `str.strip()` / `str.lower()` whitespace test. -/
def isSpc (c : Char) : Bool := c.isWhitespace

/-- Drop leading whitespace characters. -/
def dropLeading (l : List Char) : List Char := l.dropWhile isSpc

/-- Drop trailing whitespace characters. -/
def dropTrailing (l : List Char) : List Char :=
  ((l.reverse).dropWhile isSpc).reverse

/-- Model of Python `str.strip()`. -/
def pyStrip (s : String) : String :=
  String.mk (dropTrailing (dropLeading s.data))

/-- Model of Python `str.lower()` (ASCII case folding suffices here). -/
def pyLower (s : String) : String :=
  String.mk (s.data.map Char.toLower)

/-- Model of Python `int(·)` on a stripped decimal string:
an optional sign followed by at least one digit; anything else raises. -/
def digitsVal : List Char → Option Nat
  | [] => none
  | [c] => if c.isDigit then some (c.toNat - 48) else none
  | c :: rest =>
    if c.isDigit then
      (digitsVal rest).map (fun n => (c.toNat - 48) * 10 ^ rest.length + n)
    else none

/-- Model of Python `int(str(x).strip())` returning `none` where Python raises. -/
def parseIntPy (s : String) : Option Int :=
  match (pyStrip s).data with
  | [] => none
  | c :: rest =>
    if c = '-' then (digitsVal rest).map (fun n => -(n : Int))
    else if c = '+' then (digitsVal rest).map (fun n => (n : Int))
    else (digitsVal (c :: rest)).map (fun n => (n : Int))

/-! ### `safe_normalize` (source lines 76-79)

`rs = mat.sum(axis=1); rs[rs == 0] = 1.0; mat.div(rs, axis=0).fillna(0)`:
each row is divided by its sum, with a zero sum replaced by `1.0` before the
division (in `ℚ` the `fillna(0)` is a no-op since no NaN can arise). -/

/-- The per-row divisor: the row sum, with `0` replaced by `1.0`. -/
def rowDivisor (row : List ℚ) : ℚ := if row.sum = 0 then 1 else row.sum

def safe_normalize (mat : List (List ℚ)) : List (List ℚ) :=
  mat.map (fun row => row.map (fun x => x / rowDivisor row))

/-! ### Histogram table and amino-acid aggregator (source lines 120-152) -/

/-- One row of the histogram spreadsheet: `Position`, `SetName`, `Amino acid`
(a cell that may be NA), and the year columns `YEAR_MIN..YEAR_MAX` in order. -/
structure HistRow where
  position : Int
  setName : String
  aminoAcid : Option String
  vals : List ℚ
deriving DecidableEq, Repr

/-- Source line 121, `sub = df[df["Position"] == position]`: exact equality
on the signed position value. -/
def matchingRows (df : List HistRow) (position : Int) : List HistRow :=
  df.filter (fun r => r.position == position)

/-- Source line 124, `sub = sub[sub["SetName"] == sub["SetName"].iloc[0]]`;
empty when no row matched (the source raises before reaching this line). -/
def usedRows (df : List HistRow) (position : Int) : List HistRow :=
  match matchingRows df position with
  | [] => []
  | r0 :: rest => (r0 :: rest).filter (fun r => r.setName == r0.setName)

/-- Source lines 127-133, `_coerce_aa`: NA, `-`, and case-insensitive
`nan`/`na`/`n/a`/`none`/empty (after stripping) collapse to `"Other"`;
any other value is kept stripped. -/
def coerceAA : Option String → String
  | none => "Other"
  | some x =>
    let s := pyStrip x
    if s = "-" ∨ pyLower s ∈ ["nan", "na", "n/a", "none", ""] then "Other" else s

/-- Source line 140, `cols = sorted(set(aas), key=lambda z: (z == "Other", z))`:
deduplicated coerced labels, sorted by the injective key `(z == "Other", z)`. -/
def colsKeyLe (a b : String) : Bool :=
  (!(a == "Other") && (b == "Other")) || (((a == "Other") == (b == "Other")) && a ≤ b)

def colsOf (rows : List HistRow) : List String :=
  ((rows.map (fun r => coerceAA r.aminoAcid)).dedup).mergeSort colsKeyLe

/-- The accumulation loop (source lines 143-146): the column for label `c` is
the pointwise sum of the year-values of every used row whose coerced label
is `c`, starting from the all-zero column. -/
def colVec (rows : List HistRow) (c : String) : List ℚ :=
  (rows.filter (fun r => coerceAA r.aminoAcid == c)).foldl
    (fun acc r => acc.zipWith (· + ·) r.vals) (List.replicate numYears 0)

/-- The year × label matrix before normalization, as a list of year-rows. -/
def rawMat (rows : List HistRow) : List (List ℚ) :=
  (List.range numYears).map (fun i => (colsOf rows).map (fun c => (colVec rows c).getD i 0))

/-- Source line 152: `mat[c].mean()` over the normalized matrix. -/
def colMean (mat : List (List ℚ)) (cols : List String) (c : String) : ℚ :=
  ((mat.map (fun row => row.getD (cols.indexOf c) 0)).sum) / mat.length

/-- Source lines 150-151: `c.lower() == "other"`. -/
def isOtherLabel (c : String) : Bool := pyLower c == "other"

/-- Source lines 150-152: `aa_order = sorted(main, key=..., reverse=True) + other`;
the stable descending Python sort is modelled by `mergeSort` with
`le a b := mean b ≤ mean a`. -/
def aaOrder (cols : List String) (mean : String → ℚ) : List String :=
  ((cols.filter (fun c => !isOtherLabel c)).mergeSort
    (fun a b => decide (mean b ≤ mean a)))
  ++ cols.filter (fun c => isOtherLabel c)

/-! ### Position → antibody mapping (`load_position_mabs`, source lines 92-102) -/

/-- One record of the mapping JSON: `Position` (already an int) and the raw
`mAbs` field as the string Python's `str(·)` produces. -/
structure MapRow where
  position : Int
  mabsField : String
deriving DecidableEq, Repr

/-- Model of Python `s.split(",")`: split at every comma, keeping empty
chunks (structural recursion over the character list). -/
def splitCommaChars : List Char → List (List Char)
  | [] => [[]]
  | c :: rest =>
    match splitCommaChars rest with
    | [] => [[]]
    | cur :: done => if c = ',' then [] :: cur :: done else (c :: cur) :: done

def splitComma (s : String) : List String :=
  (splitCommaChars s.data).map String.mk

/-- Model of `[int(x) for x in s.split(",") if str(x).strip()]`; `none` where `int`
raises on a malformed chunk. -/
def parseMabsField (s : String) : Option (List Int) :=
  ((splitComma s).filter (fun x => pyStrip x ≠ "")).mapM parseIntPy

/-- The per-record branch of `load_position_mabs`: empty / `nan` / `None` /
`none` (after stripping) give the empty antibody list. -/
def entryMabs (r : MapRow) : Option (List Int) :=
  let s := pyStrip r.mabsField
  if s = "" ∨ s = "nan" ∨ s = "None" ∨ s = "none" then some []
  else parseMabsField s

/-- Model of `load_position_mabs`: every record parsed in order (a malformed record
raises, modelled by `none`); the resulting association list keeps insertion
order, later entries for the same position overwriting earlier ones via
`dictGet`. -/
def loadPositionMabs : List MapRow → Option (List (Int × List Int))
  | [] => some []
  | r :: rs =>
    match entryMabs r with
    | none => none
    | some l =>
      match loadPositionMabs rs with
      | none => none
      | some d => some ((r.position, l) :: d)

/-- Source line 117, `pos_to_mabs.get(position, [])`: Python dict assignment
lets the last entry for a key win. -/
def dictGet (d : List (Int × List Int)) (p : Int) : List Int :=
  (((d.filter (fun e => e.1 == p)).getLast?).map (·.2)).getD []

/-! ### Neutralization sheet (`find_row`, `cell_hex`, faces; source lines 81-84, 160-177) -/

/-- The openpyxl worksheet as the source reads it: dimensions, the row-2
header cells, column-B identifier cells (from row 3), and the recognized
solid-RGB fill of each cell (`none` when `cell_hex` would fall back to
white). -/
structure NeutSheet where
  maxRow : Nat
  maxCol : Nat
  headerRow2 : Nat → Option String
  colB : Nat → Option Int
  fillRgb : Nat → Nat → Option String

/-- Python `rgb[-6:]`. -/
def lastSix (s : String) : String := String.mk ((s.data.reverse.take 6).reverse)

/-- Source lines 81-84: `cell_hex`. -/
def cell_hex (ws : NeutSheet) (r c : Nat) : String :=
  match ws.fillRgb r c with
  | some rgb => "#" ++ lastSix rgb
  | none => "white"

/-- Source lines 162-163, `cluster_cols`: the dict maps each header name in
`CLUSTER_NAMES` to its column; a duplicated header keeps the last column. -/
def cluster_cols (ws : NeutSheet) (name : String) : Option Nat :=
  ((List.range' 1 ws.maxCol).filter (fun c => ws.headerRow2 c == some name)).getLast?

/-- Source lines 165-174, `find_row`: scan rows `3..max_row` of column B and
return the first row whose integer value matches `m` by absolute value. -/
def find_row (ws : NeutSheet) (m : Int) : Option Nat :=
  (List.range' 3 (ws.maxRow + 1 - 3)).find? (fun rr =>
    match ws.colB rr with
    | some v => v.natAbs == m.natAbs
    | none => false)

/-- Source line 177, `faces`, with the Python evaluation order inside
`ws.cell(rows[m], cluster_cols[c])`: the `cluster_cols[c]` lookup raises
`KeyError` for a missing cluster header, after which `ws.cell` raises
`TypeError` when `rows[m]` is `None` (a failed `find_row` lookup). -/
def computeFaces (ws : NeutSheet) (mabs : List Int) : Except String (List (List String)) :=
  mabs.mapM (fun m =>
    CLUSTER_NAMES.mapM (fun c =>
      match cluster_cols ws c with
      | none => Except.error ("KeyError: " ++ c)
      | some col =>
        match find_row ws m with
        | none => Except.error "TypeError: ws.cell row is None"
        | some rr => Except.ok (cell_hex ws rr col)))

/-! ### Mutation-annotation resolver (source lines 179-203) -/

/-- One row of the mutation-annotation spreadsheet: `Mutation position`,
the raw `mAB ID` cell (as `str(·)` renders it), `Virus strain`,
`Point mutation`. -/
structure MutRow where
  mutPosition : Int
  mabId : String
  strain : String
  pointMutation : String
deriving DecidableEq, Repr

/-- The `mutations` dict and the `asterisk_mabs` list; dict assignment is a
cons with lookups taking the most recent binding. -/
structure MutState where
  mutations : List (Int × Nat × Char × Char)
  asterisks : List Int
deriving DecidableEq, Repr

/-- Lookup of `mutations[m]` after the loop: the most recent assignment wins. -/
def lookupMut (st : MutState) (m : Int) : Option (Nat × Char × Char) :=
  (st.mutations.find? (fun e => e.1 == m)).map (·.2)

/-- Python `mut[0]` (guarded by a nonemptiness check in the source). -/
def pyFirst (s : String) : Char := s.data.headD ' '

/-- Python `mut[-1]` (guarded by a nonemptiness check in the source). -/
def pyLast (s : String) : Char := s.data.getLastD ' '

/-- One iteration of the `aa_df.iterrows()` loop (source lines 180-203):
skip on position mismatch, unparseable `mAB ID`, no antibody of the position
matching by absolute value, empty point mutation, or unknown strain; a strain
equal to the last cluster name appends a footnote marker, any other known
strain records `(cluster index, wild-type letter, mutant letter)`. -/
def processMutRow (position : Int) (mabs : List Int) (st : MutState) (r : MutRow) : MutState :=
  if r.mutPosition ≠ position then st
  else
    match parseIntPy r.mabId with
    | none => st
    | some mp =>
      match mabs.find? (fun mm => mm.natAbs == mp.natAbs) with
      | none => st
      | some m =>
        let strain := pyStrip r.strain
        let mutStr := pyStrip r.pointMutation
        if mutStr = "" then st
        else
          let wt := pyFirst mutStr
          let mutAA := pyLast mutStr
          if strain ∈ CLUSTER_NAMES then
            let idx := CLUSTER_NAMES.indexOf strain
            if idx = CLUSTER_NAMES.length - 1 then
              { st with asterisks := st.asterisks ++ [m] }
            else
              { st with mutations := (m, idx, wt, mutAA) :: st.mutations }
          else st

/-- The whole loop over the mutation table. -/
def resolveMutations (position : Int) (mabs : List Int) (rows : List MutRow) : MutState :=
  rows.foldl (processMutRow position mabs) ⟨[], []⟩

/-! ### Adaptive layout (source lines 205-207) -/

/-- Source line 206: `neut_h = (NEUT_ROW_H_IN * len(mabs)) if len(mabs) > 0 else NO_MABS_H_IN`. -/
def neutHeight (n : Nat) : ℚ :=
  if n > 0 then NEUT_ROW_H_IN * n else NO_MABS_H_IN

/-- Source line 207: `fig_h = HIST_H_IN + CLUSTER_H_IN + neut_h + YEAR_H_IN + 3*GAP_IN
+ TOP_PAD_IN + BOTTOM_PAD_IN`. -/
def figHeight (n : Nat) : ℚ :=
  HIST_H_IN + CLUSTER_H_IN + neutHeight n + YEAR_H_IN + 3 * GAP_IN
    + TOP_PAD_IN + BOTTOM_PAD_IN

/-! ### `render_position` (source lines 104-326): the data-transformation
pipeline up to (and including) the layout computation; the drawing calls are
pure output and are summarized by the `placeholder` flag (whether the
neutralization panel shows only the "No associated mAbs" message). -/

structure RenderOut where
  used : List HistRow
  mat : List (List ℚ)
  order : List String
  mabs : List Int
  faces : List (List String)
  muts : MutState
  neutH : ℚ
  figH : ℚ
  placeholder : Bool
deriving DecidableEq, Repr

def render_position (position : Int) (hist : List HistRow) (ws : NeutSheet)
    (aaRows : List MutRow) (mapping : List MapRow) : Except String RenderOut :=
  match loadPositionMabs mapping with
  | none => Except.error "ValueError: invalid literal for int()"
  | some dict =>
    let mabs := dictGet dict position
    match matchingRows hist position with
    | [] => Except.error ("No histogram data found for position " ++ toString position)
    | r0 :: rest =>
      let used := (r0 :: rest).filter (fun r => r.setName == r0.setName)
      let mat := safe_normalize (rawMat used)
      let order := aaOrder (colsOf used) (colMean mat (colsOf used))
      if mabs.length = 0 then
        Except.ok
          { used := used, mat := mat, order := order, mabs := mabs,
            faces := [], muts := ⟨[], []⟩,
            neutH := NO_MABS_H_IN,
            figH := HIST_H_IN + CLUSTER_H_IN + NO_MABS_H_IN + YEAR_H_IN
              + 3 * GAP_IN + TOP_PAD_IN + BOTTOM_PAD_IN,
            placeholder := true }
      else
        match computeFaces ws mabs with
        | Except.error e => Except.error e
        | Except.ok faces =>
          let st := resolveMutations position mabs aaRows
          Except.ok
            { used := used, mat := mat, order := order, mabs := mabs,
              faces := faces, muts := st,
              neutH := NEUT_ROW_H_IN * mabs.length,
              figH := HIST_H_IN + CLUSTER_H_IN + NEUT_ROW_H_IN * mabs.length
                + YEAR_H_IN + 3 * GAP_IN + TOP_PAD_IN + BOTTOM_PAD_IN,
              placeholder := false }

/-! ### Helper lemmas about stripping -/

theorem dropWhile_idem (p : Char → Bool) (l : List Char) :
    (l.dropWhile p).dropWhile p = l.dropWhile p := by
  match h : l.dropWhile p with
  | [] => simp
  | a :: t =>
    have ha : p a = false := by
      have h2 := List.head?_dropWhile_not p l
      rw [h] at h2
      simpa using h2
    simp [List.dropWhile_cons, ha]

theorem dropTrailing_append (l : List Char) :
    dropTrailing l ++ (l.reverse.takeWhile isSpc).reverse = l := by
  have h2 := congrArg List.reverse (List.takeWhile_append_dropWhile isSpc l.reverse)
  rw [List.reverse_append, List.reverse_reverse] at h2
  exact h2

theorem dropLeading_dropTrailing (l : List Char) (h : dropLeading l = l) :
    dropLeading (dropTrailing l) = dropTrailing l := by
  match ht : dropTrailing l with
  | [] => simp [dropLeading]
  | a :: t =>
    have hs := dropTrailing_append l
    rw [ht] at hs
    have ha : isSpc a = false := by
      have h2 := List.head?_dropWhile_not isSpc l
      rw [show List.dropWhile isSpc l = l from h, ← hs] at h2
      simpa using h2
    show List.dropWhile isSpc (a :: t) = a :: t
    simp [List.dropWhile_cons, ha]

theorem stripChars_idem (l : List Char) :
    dropTrailing (dropLeading (dropTrailing (dropLeading l)))
      = dropTrailing (dropLeading l) := by
  have hd : dropLeading (dropLeading l) = dropLeading l := dropWhile_idem isSpc l
  rw [dropLeading_dropTrailing (dropLeading l) hd]
  show dropTrailing (dropTrailing (dropLeading l)) = dropTrailing (dropLeading l)
  unfold dropTrailing
  rw [List.reverse_reverse, dropWhile_idem]

theorem pyStrip_idem (s : String) : pyStrip (pyStrip s) = pyStrip s := by
  unfold pyStrip
  exact congrArg String.mk (stripChars_idem s.data)

/-- C7 helper: coercing the sentinel gives the sentinel back. -/
theorem coerceAA_other : coerceAA (some "Other") = "Other" := by decide

/-- C7: amino-acid label coercion is idempotent. -/
theorem coerceAA_idem (x : Option String) :
    coerceAA (some (coerceAA x)) = coerceAA x := by
  match x with
  | none => exact coerceAA_other
  | some x0 =>
    by_cases hc : pyStrip x0 = "-" ∨ pyLower (pyStrip x0) ∈ ["nan", "na", "n/a", "none", ""]
    · have h1 : coerceAA (some x0) = "Other" := by simp only [coerceAA, if_pos hc]
      rw [h1]; exact coerceAA_other
    · have h1 : coerceAA (some x0) = pyStrip x0 := by simp only [coerceAA, if_neg hc]
      rw [h1]
      have h2 : pyStrip (pyStrip x0) = pyStrip x0 := pyStrip_idem x0
      simp only [coerceAA, h2, if_neg hc]

/-! ### Helper lemmas for the normalization claim -/

theorem sum_map_div (l : List ℚ) (s : ℚ) :
    (l.map (fun x => x / s)).sum = l.sum / s := by
  induction l with
  | nil => simp
  | cons a t ih => simp [ih, add_div]

theorem all_zero_of_sum_zero (l : List ℚ) (h : ∀ x ∈ l, 0 ≤ x) (hs : l.sum = 0) :
    ∀ x ∈ l, x = 0 := by
  induction l with
  | nil => simp
  | cons a t ih =>
    have ha : 0 ≤ a := h a (by simp)
    have ht : ∀ x ∈ t, 0 ≤ x := fun x hx => h x (by simp [hx])
    have hts : 0 ≤ t.sum := List.sum_nonneg ht
    have hsum : a + t.sum = 0 := by simpa using hs
    have ha0 : a = 0 := by linarith
    have hts0 : t.sum = 0 := by linarith
    intro x hx
    rcases List.mem_cons.mp hx with h1 | h1
    · rw [h1, ha0]
    · exact ih ht hts0 x h1

theorem zipWith_add_nonneg (a b : List ℚ) (ha : ∀ x ∈ a, 0 ≤ x)
    (hb : ∀ x ∈ b, 0 ≤ x) :
    ∀ x ∈ List.zipWith (· + ·) a b, 0 ≤ x := by
  induction a generalizing b with
  | nil => simp
  | cons u ut ih =>
    match b with
    | [] => simp
    | v :: vt =>
      intro x hx
      rcases List.mem_cons.mp hx with h1 | h1
      · rw [h1]
        exact add_nonneg (ha u (by simp)) (hb v (by simp))
      · exact ih vt (fun y hy => ha y (by simp [hy]))
          (fun y hy => hb y (by simp [hy])) x h1

theorem foldl_zip_nonneg (rs : List HistRow) (acc : List ℚ)
    (hacc : ∀ x ∈ acc, 0 ≤ x)
    (hv : ∀ r ∈ rs, ∀ x ∈ r.vals, 0 ≤ x) :
    ∀ x ∈ rs.foldl (fun a r => a.zipWith (· + ·) r.vals) acc, 0 ≤ x := by
  induction rs generalizing acc with
  | nil => simpa
  | cons r rt ih =>
    intro x hx
    exact ih (acc.zipWith (· + ·) r.vals)
      (zipWith_add_nonneg acc r.vals hacc (hv r (by simp)))
      (fun r2 h2 => hv r2 (by simp [h2])) x hx

theorem colVec_nonneg (rows : List HistRow) (c : String)
    (hv : ∀ r ∈ rows, ∀ x ∈ r.vals, 0 ≤ x) :
    ∀ x ∈ colVec rows c, 0 ≤ x := by
  intro x hx
  refine foldl_zip_nonneg _ _ ?_ ?_ x hx
  · intro y hy
    rw [List.eq_of_mem_replicate hy]
  · intro r hr
    exact hv r (List.mem_of_mem_filter hr)

theorem getD_nonneg (l : List ℚ) (i : Nat) (h : ∀ x ∈ l, 0 ≤ x) :
    0 ≤ l.getD i 0 := by
  rw [List.getD_eq_getElem?_getD]
  match he : l[i]? with
  | none => simp
  | some v =>
    have : v ∈ l := List.getElem?_mem he
    simpa using h v this

theorem rawMat_nonneg (rows : List HistRow)
    (hv : ∀ r ∈ rows, ∀ x ∈ r.vals, 0 ≤ x) :
    ∀ row ∈ rawMat rows, ∀ x ∈ row, 0 ≤ x := by
  intro row hrow
  simp only [rawMat, List.mem_map] at hrow
  obtain ⟨i, _, rfl⟩ := hrow
  intro x hx
  simp only [List.mem_map] at hx
  obtain ⟨c, _, rfl⟩ := hx
  exact getD_nonneg _ _ (colVec_nonneg rows c hv)

/-- C2: every year-row of the aggregator's matrix is normalized to sum `1`
when its pre-normalization sum is positive, stays exactly all-zero when its
sum is zero, and the divisor used is never zero. -/
theorem aggregator_row_normalization (rows : List HistRow)
    (hv : ∀ r ∈ rows, ∀ x ∈ r.vals, 0 ≤ x) :
    safe_normalize (rawMat rows)
      = (rawMat rows).map (fun row => row.map (fun x => x / rowDivisor row)) ∧
    ∀ row ∈ rawMat rows,
      rowDivisor row ≠ 0 ∧
      (0 < row.sum → (row.map (fun x => x / rowDivisor row)).sum = 1) ∧
      (row.sum = 0 → row.map (fun x => x / rowDivisor row) = row ∧ ∀ x ∈ row, x = 0) := by
  refine ⟨rfl, ?_⟩
  intro row hrow
  refine ⟨?_, ?_, ?_⟩
  · unfold rowDivisor
    split
    · exact one_ne_zero
    · assumption
  · intro hpos
    have hne : row.sum ≠ 0 := ne_of_gt hpos
    have hdiv : rowDivisor row = row.sum := by simp [rowDivisor, hne]
    rw [hdiv, sum_map_div]
    exact div_self hne
  · intro hzero
    have hdiv : rowDivisor row = 1 := by simp [rowDivisor, hzero]
    constructor
    · rw [hdiv]
      simp
    · exact all_zero_of_sum_zero row (rawMat_nonneg rows hv row hrow) hzero

/-- C2 witness: the normalization theorem applied to a concrete histogram
table with one all-ones row. -/
theorem aggregator_row_normalization_witness :
    safe_normalize (rawMat [⟨5, "S1", some "A", List.replicate numYears 1⟩])
      = (rawMat [⟨5, "S1", some "A", List.replicate numYears 1⟩]).map
          (fun row => row.map (fun x => x / rowDivisor row)) ∧
    ∀ row ∈ rawMat [⟨5, "S1", some "A", List.replicate numYears 1⟩],
      rowDivisor row ≠ 0 ∧
      (0 < row.sum → (row.map (fun x => x / rowDivisor row)).sum = 1) ∧
      (row.sum = 0 → row.map (fun x => x / rowDivisor row) = row ∧ ∀ x ∈ row, x = 0) :=
  aggregator_row_normalization [⟨5, "S1", some "A", List.replicate numYears 1⟩]
    (by decide)

/-- C5: the aggregator keeps exactly the matching rows whose `SetName` equals
the `SetName` of the first matching row, in table order, silently dropping
all other matching rows. -/
theorem usedRows_first_set (df : List HistRow) (position : Int)
    (r0 : HistRow) (rest : List HistRow)
    (h : matchingRows df position = r0 :: rest) :
    ∀ r, r ∈ usedRows df position ↔
      r ∈ matchingRows df position ∧ r.setName = r0.setName := by
  intro r
  unfold usedRows
  rw [h]
  simp only [List.mem_filter, List.mem_cons, beq_iff_eq]

/-- C5 witness: a position with rows from sets `S1`, `S2`, `S1`; only the
`S1` rows survive. -/
theorem usedRows_first_set_witness :
    matchingRows
        [⟨5, "S1", some "A", []⟩, ⟨5, "S2", some "K", []⟩,
         ⟨6, "S3", none, []⟩, ⟨5, "S1", some "T", []⟩] 5
      = [⟨5, "S1", some "A", []⟩, ⟨5, "S2", some "K", []⟩, ⟨5, "S1", some "T", []⟩] ∧
    (∀ r, r ∈ usedRows
        [⟨5, "S1", some "A", []⟩, ⟨5, "S2", some "K", []⟩,
         ⟨6, "S3", none, []⟩, ⟨5, "S1", some "T", []⟩] 5 ↔
      r ∈ matchingRows
        [⟨5, "S1", some "A", []⟩, ⟨5, "S2", some "K", []⟩,
         ⟨6, "S3", none, []⟩, ⟨5, "S1", some "T", []⟩] 5 ∧ r.setName = "S1") :=
  ⟨by decide,
   usedRows_first_set
    [⟨5, "S1", some "A", []⟩, ⟨5, "S2", some "K", []⟩,
     ⟨6, "S3", none, []⟩, ⟨5, "S1", some "T", []⟩] 5
    ⟨5, "S1", some "A", []⟩ [⟨5, "S2", some "K", []⟩, ⟨5, "S1", some "T", []⟩]
    (by decide)⟩

/-- C6: the stacking/legend order is a permutation of the columns in which
every label reading `other` (case-insensitively) comes after every other
label, and the non-`other` labels are in descending order of mean
proportion. -/
theorem aaOrder_other_last (cols : List String) (mean : String → ℚ) :
    (aaOrder cols mean).Perm cols ∧
    (aaOrder cols mean).Pairwise (fun a b =>
      (isOtherLabel a = true → isOtherLabel b = true) ∧
      (isOtherLabel a = false → isOtherLabel b = false → mean b ≤ mean a)) := by
  unfold aaOrder
  constructor
  · have h1 : ((cols.filter (fun c => !isOtherLabel c)).mergeSort
        (fun a b => decide (mean b ≤ mean a))).Perm
        (cols.filter (fun c => !isOtherLabel c)) :=
      List.mergeSort_perm _ _
    have h2 := List.filter_append_perm (fun c => !isOtherLabel c) cols
    have h3 : (fun x => !(!isOtherLabel x)) = (fun x => isOtherLabel x) := by
      funext x; simp
    rw [h3] at h2
    exact (h1.append_right _).trans h2
  · rw [List.pairwise_append]
    refine ⟨?_, ?_, ?_⟩
    · have hs : ((cols.filter (fun c => !isOtherLabel c)).mergeSort
          (fun a b => decide (mean b ≤ mean a))).Pairwise
          (fun a b => decide (mean b ≤ mean a) = true) := by
        apply List.sorted_mergeSort
        · intro a b c hab hbc
          simp only [decide_eq_true_eq] at *
          exact le_trans hbc hab
        · intro a b
          simp only [Bool.or_eq_true, decide_eq_true_eq]
          exact le_total (mean b) (mean a)
      refine hs.imp_of_mem ?_
      intro a b ha hb hab
      have ha2 : isOtherLabel a = false := by
        have := List.mem_mergeSort.mp ha
        simpa using (List.mem_filter.mp this).2
      constructor
      · intro hcontra
        rw [ha2] at hcontra
        cases hcontra
      · intro _ _
        exact of_decide_eq_true hab
    · apply List.pairwise_of_forall_mem_list
      intro a ha b hb
      have ha2 : isOtherLabel a = true := (List.mem_filter.mp ha).2
      have hb2 : isOtherLabel b = true := (List.mem_filter.mp hb).2
      exact ⟨fun _ => hb2, fun hf _ => absurd ha2 (by simp [hf])⟩
    · intro a _ b hb
      have hb2 : isOtherLabel b = true := (List.mem_filter.mp hb).2
      exact ⟨fun _ => hb2, fun _ hbf => absurd hb2 (by simp [hbf])⟩

/-- C1 counterexample: a table holding one row at position `5`; querying `-5`
selects no rows while querying `5` selects that row, so the sign of the
queried position is not discarded. -/
theorem position_sign_counterexample :
    matchingRows [⟨5, "S1", some "A", []⟩] (-5)
      ≠ matchingRows [⟨5, "S1", some "A", []⟩] 5 := by decide

/-- C1 amended: histogram and mutation rows are matched by exact signed
equality on the position; for a nonzero position, no row selected for `P`
is selected for `-P`, and a mutation row whose position differs from the
query is skipped untouched. -/
theorem position_signed_matching (df : List HistRow) (position : Int)
    (hp : position ≠ 0) :
    (∀ r, r ∈ matchingRows df position ↔ r ∈ df ∧ r.position = position) ∧
    (∀ r ∈ matchingRows df position, r ∉ matchingRows df (-position)) ∧
    (∀ (mabs : List Int) (st : MutState) (mr : MutRow),
      mr.mutPosition ≠ position → processMutRow position mabs st mr = st) := by
  refine ⟨?_, ?_, ?_⟩
  · intro r
    simp [matchingRows, List.mem_filter]
  · intro r hr hr2
    simp only [matchingRows, List.mem_filter, beq_iff_eq] at hr hr2
    omega
  · intro mabs st mr hmr
    simp [processMutRow, hmr]

/-- C1 amended witness: the signed-equality characterization applied to a
one-row table at position `5`. -/
theorem position_signed_matching_witness :
    ((5 : Int) ≠ 0) ∧
    (∀ r, r ∈ matchingRows [⟨5, "S1", some "A", []⟩] 5 ↔
      r ∈ [(⟨5, "S1", some "A", []⟩ : HistRow)] ∧ r.position = 5) :=
  ⟨by decide,
   (position_signed_matching [⟨5, "S1", some "A", []⟩] 5 (by decide)).1⟩

/-- C3: antibody IDs resolve by absolute value: the neutralization-sheet row
lookup gives the same row for `-m` and `m`, and a mutation-annotation row
whose `mAB ID` parses to `-k` is processed exactly like one parsing to `k`. -/
theorem antibody_abs_resolution (ws : NeutSheet) (m : Int)
    (pos : Int) (mabs : List Int) (st : MutState)
    (mp : Int) (sn pm id1 id2 : String) (k : Int)
    (h1 : parseIntPy id1 = some k) (h2 : parseIntPy id2 = some (-k)) :
    find_row ws (-m) = find_row ws m ∧
    processMutRow pos mabs st ⟨mp, id1, sn, pm⟩
      = processMutRow pos mabs st ⟨mp, id2, sn, pm⟩ ∧
    (∀ (mabs2 : List Int) (q : Int),
      (((-m) :: mabs2).find? (fun mm => mm.natAbs == q.natAbs)).isSome
        = ((m :: mabs2).find? (fun mm => mm.natAbs == q.natAbs)).isSome) := by
  refine ⟨?_, ?_, ?_⟩
  · unfold find_row
    rw [Int.natAbs_neg]
  · simp only [processMutRow, h1, h2, Int.natAbs_neg]
  · intro mabs2 q
    simp only [List.find?_cons, Int.natAbs_neg]
    cases m.natAbs == q.natAbs <;> rfl

/-- C3 witness: IDs `117` and `-117` resolve identically against a concrete
sheet and a concrete mutation row. -/
theorem antibody_abs_resolution_witness :
    find_row
        { maxRow := 3, maxCol := 2, headerRow2 := fun _ => none,
          colB := fun r => if r = 3 then some 117 else none,
          fillRgb := fun _ _ => none } (-117)
      = find_row
        { maxRow := 3, maxCol := 2, headerRow2 := fun _ => none,
          colB := fun r => if r = 3 then some 117 else none,
          fillRgb := fun _ _ => none } 117 ∧
    processMutRow 5 [117] ⟨[], []⟩ ⟨5, "117", "HK14", "K160T"⟩
      = processMutRow 5 [117] ⟨[], []⟩ ⟨5, "-117", "HK14", "K160T"⟩ :=
  ⟨(antibody_abs_resolution
    { maxRow := 3, maxCol := 2, headerRow2 := fun _ => none,
      colB := fun r => if r = 3 then some 117 else none,
      fillRgb := fun _ _ => none } 117 5 [117] ⟨[], []⟩ 5 "HK14" "K160T"
    "117" "-117" 117 (by decide) (by decide)).1,
   (antibody_abs_resolution
    { maxRow := 3, maxCol := 2, headerRow2 := fun _ => none,
      colB := fun r => if r = 3 then some 117 else none,
      fillRgb := fun _ _ => none } 117 5 [117] ⟨[], []⟩ 5 "HK14" "K160T"
    "117" "-117" 117 (by decide) (by decide)).2.1⟩

/-- C4: a matching mutation row whose strain is the final cluster only
footnote-marks the antibody and leaves the positioned-mutation set untouched;
a strain at any earlier cluster index records `(index, wild-type letter,
mutant letter)` for the antibody instead, leaving the footnote list alone. -/
theorem mutation_placement (position : Int) (mabs : List Int) (st : MutState)
    (r : MutRow) (m mp : Int)
    (h1 : r.mutPosition = position)
    (h2 : parseIntPy r.mabId = some mp)
    (h3 : mabs.find? (fun mm => mm.natAbs == mp.natAbs) = some m)
    (h4 : pyStrip r.pointMutation ≠ "")
    (h5 : pyStrip r.strain ∈ CLUSTER_NAMES) :
    (CLUSTER_NAMES.indexOf (pyStrip r.strain) = CLUSTER_NAMES.length - 1 →
      (processMutRow position mabs st r).asterisks = st.asterisks ++ [m] ∧
      (processMutRow position mabs st r).mutations = st.mutations) ∧
    (CLUSTER_NAMES.indexOf (pyStrip r.strain) ≠ CLUSTER_NAMES.length - 1 →
      (processMutRow position mabs st r).asterisks = st.asterisks ∧
      (processMutRow position mabs st r).mutations
        = (m, CLUSTER_NAMES.indexOf (pyStrip r.strain),
            pyFirst (pyStrip r.pointMutation), pyLast (pyStrip r.pointMutation))
          :: st.mutations ∧
      lookupMut (processMutRow position mabs st r) m
        = some (CLUSTER_NAMES.indexOf (pyStrip r.strain),
            pyFirst (pyStrip r.pointMutation), pyLast (pyStrip r.pointMutation))) := by
  constructor
  · intro hidx
    have hr : processMutRow position mabs st r
        = { st with asterisks := st.asterisks ++ [m] } := by
      simp only [processMutRow, h1, h2, h3, ne_eq, not_true_eq_false, if_false,
        if_neg h4, if_pos h5, if_pos hidx]
    rw [hr]
    exact ⟨rfl, rfl⟩
  · intro hidx
    have hr : processMutRow position mabs st r
        = { st with mutations :=
            (m, CLUSTER_NAMES.indexOf (pyStrip r.strain),
              pyFirst (pyStrip r.pointMutation), pyLast (pyStrip r.pointMutation))
            :: st.mutations } := by
      simp only [processMutRow, h1, h2, h3, ne_eq, not_true_eq_false, if_false,
        if_neg h4, if_pos h5, if_neg hidx]
    rw [hr]
    refine ⟨rfl, rfl, ?_⟩
    simp [lookupMut]

/-- C4 witness: one row at the final cluster `HK14` (footnote only) applied
through the placement theorem. -/
theorem mutation_placement_witness :
    (CLUSTER_NAMES.indexOf (pyStrip "HK14") = CLUSTER_NAMES.length - 1 →
      (processMutRow 7 [117] ⟨[], []⟩ ⟨7, "117", "HK14", "K160T"⟩).asterisks
          = ([] : List Int) ++ [117] ∧
      (processMutRow 7 [117] ⟨[], []⟩ ⟨7, "117", "HK14", "K160T"⟩).mutations
          = (⟨[], []⟩ : MutState).mutations) ∧
    (CLUSTER_NAMES.indexOf (pyStrip "HK14") ≠ CLUSTER_NAMES.length - 1 →
      (processMutRow 7 [117] ⟨[], []⟩ ⟨7, "117", "HK14", "K160T"⟩).asterisks
          = (⟨[], []⟩ : MutState).asterisks ∧
      (processMutRow 7 [117] ⟨[], []⟩ ⟨7, "117", "HK14", "K160T"⟩).mutations
        = (117, CLUSTER_NAMES.indexOf (pyStrip "HK14"),
            pyFirst (pyStrip "K160T"), pyLast (pyStrip "K160T"))
          :: (⟨[], []⟩ : MutState).mutations ∧
      lookupMut (processMutRow 7 [117] ⟨[], []⟩ ⟨7, "117", "HK14", "K160T"⟩) 117
        = some (CLUSTER_NAMES.indexOf (pyStrip "HK14"),
            pyFirst (pyStrip "K160T"), pyLast (pyStrip "K160T"))) :=
  mutation_placement 7 [117] ⟨[], []⟩ ⟨7, "117", "HK14", "K160T"⟩ 117 117
    rfl (by decide) (by decide) (by decide) (by decide)

/-! ### Concrete fixtures for the end-to-end claims -/

instance : Inhabited MutState := ⟨⟨[], []⟩⟩

instance : Inhabited RenderOut := ⟨⟨[], [], [], [], [], ⟨[], []⟩, 0, 0, false⟩⟩

/-- A one-row histogram table at position `7`, set `S1`. -/
def histFix : List HistRow := [⟨7, "S1", some "A", []⟩]

/-- A neutralization sheet whose row 2 holds all sixteen cluster headers in
columns 2-17 and whose column B holds antibody IDs `5` (row 3) and `7`
(row 4). -/
def wsFix : NeutSheet :=
  { maxRow := 4, maxCol := 17,
    headerRow2 := fun c =>
      if 2 ≤ c ∧ c ≤ 17 then some (CLUSTER_NAMES.getD (c - 2) "") else none,
    colB := fun r => if r = 3 then some 5 else if r = 4 then some 7 else none,
    fillRgb := fun _ _ => none }

/-- The same sheet but with only the unrelated antibody ID `9` in column B,
so lookups for `5` and `7` fail. -/
def wsMissing : NeutSheet :=
  { wsFix with maxRow := 3, colB := fun r => if r = 3 then some 9 else none }

/-- Mapping document sending position `7` to antibodies `5` and `7`. -/
def mapFix : List MapRow := [⟨7, "5, 7"⟩]

/-- The successful render of `histFix`/`wsFix`/`mapFix` at position `7`. -/
def outFix : RenderOut :=
  match render_position 7 histFix wsFix [] mapFix with
  | Except.ok o => o
  | Except.error _ => default

/-- C8: on any successful render, the neutralization block height is the
per-row height times the antibody count when antibodies exist, the fixed
minimum placeholder height when there are none, and the figure height is the
sum of the fixed panel heights, the adaptive height, the three gaps and the
two paddings; two antibodies give exactly twice the per-row height. -/
theorem adaptive_height (position : Int) (hist : List HistRow) (ws : NeutSheet)
    (aaRows : List MutRow) (mapping : List MapRow) (out : RenderOut)
    (h : render_position position hist ws aaRows mapping = Except.ok out) :
    (out.mabs.length = 0 → out.neutH = NO_MABS_H_IN ∧ out.placeholder = true) ∧
    (0 < out.mabs.length →
      out.neutH = NEUT_ROW_H_IN * out.mabs.length ∧ out.placeholder = false) ∧
    out.neutH = neutHeight out.mabs.length ∧
    out.figH = HIST_H_IN + CLUSTER_H_IN + out.neutH + YEAR_H_IN + 3 * GAP_IN
      + TOP_PAD_IN + BOTTOM_PAD_IN ∧
    (out.mabs.length = 2 → out.neutH = 2 * NEUT_ROW_H_IN) := by
  unfold render_position at h
  split at h
  · cases h
  · split at h
    · cases h
    · simp only [] at h
      split at h
      · rename_i hlen
        cases h
        refine ⟨fun _ => ⟨rfl, rfl⟩, ?_, ?_, rfl, ?_⟩
        · intro hpos
          simp only [hlen] at hpos
          exact absurd hpos (by omega)
        · simp [neutHeight, hlen]
        · intro h2
          rw [hlen] at h2
          cases h2
      · split at h
        · cases h
        · cases h
          refine ⟨?_, fun _ => ⟨rfl, rfl⟩, ?_, rfl, ?_⟩
          · intro h0
            dsimp only at h0
            omega
          · dsimp only
            rw [neutHeight, if_pos (by omega)]
          · intro h2
            dsimp only at h2 ⊢
            rw [h2]
            push_cast
            ring

/-- C8 witness: the height theorem applied to the concrete two-antibody
render. -/
theorem adaptive_height_witness :
    (outFix.mabs.length = 0 → outFix.neutH = NO_MABS_H_IN ∧ outFix.placeholder = true) ∧
    (0 < outFix.mabs.length →
      outFix.neutH = NEUT_ROW_H_IN * outFix.mabs.length ∧ outFix.placeholder = false) ∧
    outFix.neutH = neutHeight outFix.mabs.length ∧
    outFix.figH = HIST_H_IN + CLUSTER_H_IN + outFix.neutH + YEAR_H_IN + 3 * GAP_IN
      + TOP_PAD_IN + BOTTOM_PAD_IN ∧
    (outFix.mabs.length = 2 → outFix.neutH = 2 * NEUT_ROW_H_IN) :=
  adaptive_height 7 histFix wsFix [] mapFix outFix (by rfl)

/-- C9: evaluating the renderer on a position whose histogram rows exist but
whose mapped antibody `7` has no row in the neutralization sheet: instead of
skipping the failed lookup, the render aborts (`ws.cell(None, ...)` raises),
contradicting the claimed recoverability of failed sheet lookups. -/
theorem neut_lookup_failure_is_fatal :
    matchingRows histFix 7 ≠ [] ∧
    render_position 7 histFix wsMissing [] [⟨7, "7"⟩]
      = Except.error "TypeError: ws.cell row is None" := by
  refine ⟨by decide, ?_⟩
  rfl

/-! ### C10: positions absent from the mapping document -/

/-- The observable outcome of a render: antibody list, neutralization block
height, figure height, and whether the placeholder panel is drawn. -/
def renderSummary (e : Except String RenderOut) : Option (List Int × ℚ × ℚ × Bool) :=
  match e with
  | Except.ok o => some (o.mabs, o.neutH, o.figH, o.placeholder)
  | Except.error _ => none

theorem loadPositionMabs_keys :
    ∀ (mapping : List MapRow) (dict : List (Int × List Int)),
      loadPositionMabs mapping = some dict →
      ∀ p : Int, (∀ e ∈ mapping, e.position ≠ p) →
      ∀ x ∈ dict, x.1 ≠ p := by
  intro mapping
  induction mapping with
  | nil =>
    intro dict h p _ x hx
    simp only [loadPositionMabs, Option.some.injEq] at h
    subst h
    simp at hx
  | cons r rs ih =>
    intro dict h p hnone x hx
    simp only [loadPositionMabs] at h
    rcases he : entryMabs r with _ | l
    · rw [he] at h
      cases h
    · rw [he] at h
      rcases hl : loadPositionMabs rs with _ | d2
      · rw [hl] at h
        cases h
      · rw [hl] at h
        simp only [Option.some.injEq] at h
        subst h
        rcases List.mem_cons.mp hx with h1 | h1
        · rw [h1]
          simpa using hnone r (by simp)
        · exact ih d2 hl p (fun e he2 => hnone e (by simp [he2])) x h1

theorem dictGet_eq_nil (dict : List (Int × List Int)) (p : Int)
    (h : ∀ x ∈ dict, x.1 ≠ p) : dictGet dict p = [] := by
  unfold dictGet
  have hf : dict.filter (fun e => e.1 == p) = [] := by
    rw [List.filter_eq_nil_iff]
    intro a ha
    simpa using h a ha
  rw [hf]
  rfl

/-- C10: a position with no record in the mapping document renders exactly
like one mapped to an empty antibody list: the render succeeds (given
histogram rows exist), with no antibodies, the placeholder panel, and the
fixed minimum neutralization height. -/
theorem unmapped_position_placeholder (position : Int) (hist : List HistRow)
    (ws : NeutSheet) (aaRows : List MutRow) (mapping : List MapRow)
    (dict : List (Int × List Int)) (r0 : HistRow) (rest : List HistRow)
    (hload : loadPositionMabs mapping = some dict)
    (hnone : ∀ e ∈ mapping, e.position ≠ position)
    (hsub : matchingRows hist position = r0 :: rest) :
    renderSummary (render_position position hist ws aaRows mapping)
      = some ([], NO_MABS_H_IN, figHeight 0, true) := by
  have hget : dictGet dict position = [] :=
    dictGet_eq_nil dict position
      (loadPositionMabs_keys mapping dict hload position hnone)
  unfold render_position
  rw [hload]
  simp only [hsub, hget]
  rfl

/-- C10 witness: a mapping that only mentions position `9` leaves position
`7` rendering with the placeholder panel at the minimum height. -/
theorem unmapped_position_placeholder_witness :
    renderSummary (render_position 7 histFix wsFix [] [⟨9, "5"⟩])
      = some ([], NO_MABS_H_IN, figHeight 0, true) :=
  unmapped_position_placeholder 7 histFix wsFix [] [⟨9, "5"⟩]
    [(9, [5])] ⟨7, "S1", some "A", []⟩ [] (by rfl) (by decide) (by rfl)

end Hist
